import Mathlib

/-!
Verification of the build-execution core of the Concourse CI engine against
its natural-language specification.

The development shallowly embeds three subsystems of the Go source:

* the step builder (`atc/engine/builder`): compiling a build plan AST into a
  tree of step combinators (`stepBuilder.buildStep` and friends);
* the garden-runtime image fetcher (`atc/worker/gardenruntime/image.go`) and
  the `GetStep.run` leaf (`atc/exec`);
* the check coordinator (`checkDelegate.WaitToRun` in `atc/engine`).

External collaborators (database scopes, locks, clocks, rate limiters,
volume/streaming backends, credential evaluation) are modelled as explicit
oracle inputs: every place the Go code performs a fallible or time-dependent
call, the embedding consumes a value of an `Except`/`Bool`/trace parameter
describing that call's outcome, so that the pure control flow of the source
is preserved exactly.
-/

namespace Concourse

/-! ## Plan model

`atc.Plan` in Go is a struct with one pointer field per step variant plus an
`Attempts` list; at most one variant is populated.  The embedding is the
corresponding tagged sum, with an explicit `noVariant` constructor for the
case in which no variant field is set (reachable in Go, and the final
`return exec.IdentityStep{}` arm of `stepBuilder.buildStep`).  Constructors
are listed in the order of the `if` chain in `buildStep`.  The `Across`
variant is omitted: its construction in the source references identifiers
that are not defined in the provided files, and no claim exercises it.
Leaf payloads are reduced to the step name; the other leaf fields are opaque
to the builder.
-/

inductive Plan where
  | aggregate (attempts : List Nat) (subs : List Plan)
  | inParallel (attempts : List Nat) (subs : List Plan) (limit : Nat) (failFast : Bool)
  | doSeq (attempts : List Nat) (subs : List Plan)
  | timeout (attempts : List Nat) (step : Plan) (duration : String)
  | tryStep (attempts : List Nat) (step : Plan)
  | onAbort (attempts : List Nat) (step next : Plan)
  | onError (attempts : List Nat) (step next : Plan)
  | onSuccess (attempts : List Nat) (step next : Plan)
  | onFailure (attempts : List Nat) (step next : Plan)
  | ensure (attempts : List Nat) (step next : Plan)
  | task (attempts : List Nat) (name : String)
  | setPipeline (attempts : List Nat) (name : String)
  | loadVar (attempts : List Nat) (name : String)
  | get (attempts : List Nat) (name : String)
  | put (attempts : List Nat) (name : String)
  | retry (attempts : List Nat) (subs : List Plan)
  | artifactInput (attempts : List Nat) (name : String)
  | artifactOutput (attempts : List Nat) (name : String)
  | noVariant (attempts : List Nat)

/-- The `Attempts` field of a plan node. -/
def Plan.attempts : Plan → List Nat
  | .aggregate a _ => a
  | .inParallel a _ _ _ => a
  | .doSeq a _ => a
  | .timeout a _ _ => a
  | .tryStep a _ => a
  | .onAbort a _ _ => a
  | .onError a _ _ => a
  | .onSuccess a _ _ => a
  | .onFailure a _ _ => a
  | .ensure a _ _ => a
  | .task a _ => a
  | .setPipeline a _ => a
  | .loadVar a _ => a
  | .get a _ => a
  | .put a _ => a
  | .retry a _ => a
  | .artifactInput a _ => a
  | .artifactOutput a _ => a
  | .noVariant a => a

/-! ## Compiled step trees

`exec.Step` values produced by the builder.  Combinators hold their compiled
children; factory-built leaves (`stepFactory.GetStep` etc.) are modelled as
constructors holding the plan they were handed — in particular the plan's
`Attempts` list, which the Go code mutates on the child immediately before
the recursive `buildStep` call and which flows into the leaf's container
metadata. -/

inductive Step where
  | identity
  | aggregate (steps : List Step)
  | inParallel (steps : List Step) (limit : Nat) (failFast : Bool)
  | onSuccess (step next : Step)
  | timeout (step : Step) (duration : String)
  | tryStep (step : Step)
  | onAbort (step next : Step)
  | onError (step next : Step)
  | onFailure (step next : Step)
  | ensure (step next : Step)
  | retry (steps : List Step)
  | task (plan : Plan)
  | setPipeline (plan : Plan)
  | loadVar (plan : Plan)
  | get (plan : Plan)
  | put (plan : Plan)
  | artifactInput (plan : Plan)
  | artifactOutput (plan : Plan)

/-! `buildStepA p a` models the Go call `builder.buildStep(build, p)` made
after the caller assigned `p.Attempts = a` (every combinator in the source
performs exactly that assignment on each child before recursing; at the
root, `a` is the plan's own `Attempts`).  The four functions mirror,
respectively, the dispatching `buildStep`, the child loops of
`buildAggregateStep`/`buildParallelStep`, the backwards loop of
`buildDoStep`, and the indexed loop of `buildRetryStep` (whose children get
`plan.Attempts` with the 1-based index appended). -/

mutual

def buildStepA : Plan → List Nat → Step
  | .aggregate _ subs, a => .aggregate (buildListA subs a)
  | .inParallel _ subs limit ff, a => .inParallel (buildListA subs a) limit ff
  | .doSeq _ subs, a => buildDoA subs a
  | .timeout _ s d, a => .timeout (buildStepA s a) d
  | .tryStep _ s, a => .tryStep (buildStepA s a)
  | .onAbort _ s n, a => .onAbort (buildStepA s a) (buildStepA n a)
  | .onError _ s n, a => .onError (buildStepA s a) (buildStepA n a)
  | .onSuccess _ s n, a => .onSuccess (buildStepA s a) (buildStepA n a)
  | .onFailure _ s n, a => .onFailure (buildStepA s a) (buildStepA n a)
  | .ensure _ s n, a => .ensure (buildStepA s a) (buildStepA n a)
  | .task _ name, a => .task (.task a name)
  | .setPipeline _ name, a => .setPipeline (.setPipeline a name)
  | .loadVar _ name, a => .loadVar (.loadVar a name)
  | .get _ name, a => .get (.get a name)
  | .put _ name, a => .put (.put a name)
  | .retry _ subs, a => .retry (buildRetryA subs a 1)
  | .artifactInput _ name, a => .artifactInput (.artifactInput a name)
  | .artifactOutput _ name, a => .artifactOutput (.artifactOutput a name)
  | .noVariant _, _ => .identity

def buildListA : List Plan → List Nat → List Step
  | [], _ => []
  | p :: ps, a => buildStepA p a :: buildListA ps a

def buildDoA : List Plan → List Nat → Step
  | [], _ => .identity
  | p :: ps, a => .onSuccess (buildStepA p a) (buildDoA ps a)

def buildRetryA : List Plan → List Nat → Nat → List Step
  | [], _, _ => []
  | p :: ps, a, i => buildStepA p (a ++ [i]) :: buildRetryA ps a (i + 1)

end

/-- `stepBuilder.buildStep`: compile a plan, reading the attempts list off
the plan itself (the root case; recursion happens through `buildStepA`). -/
def buildStep (p : Plan) : Step :=
  buildStepA p p.attempts

/-- A build record: schema tag plus the private plan.  The Go interface's
other accessors are irrelevant to the builder's control flow. -/
structure Build where
  schema : String
  privatePlan : Plan

def supportedSchema : String := "exec.v2"

/-- `stepBuilder.BuildStep`: `nil` builds (modelled as `none`) and
unsupported schemas fail; otherwise the private plan is compiled with no
further validation. -/
def BuildStep (build : Option Build) : Except String Step :=
  match build with
  | none => .error "must provide a build"
  | some b =>
    if b.schema != supportedSchema then .error "schema not supported"
    else .ok (buildStep b.privatePlan)

/-! ## Attempts carried by compiled leaves

`stepLeafAttempts` extracts, from a compiled step tree, the `Attempts` list
stored in each factory-built leaf, left to right.  `planLeafAttemptsA p a`
computes, from the plan alone, the attempts each of its leaves is expected
to carry when the node itself carries `a`: a `Retry` node gives its `i`-th
child `a` with the 1-based `i` appended, every other combinator passes `a`
through unchanged, and a variantless node compiles away to no leaf. -/

mutual

def stepLeafAttempts : Step → List (List Nat)
  | .identity => []
  | .aggregate steps => stepLeafList steps
  | .inParallel steps _ _ => stepLeafList steps
  | .onSuccess s n => stepLeafAttempts s ++ stepLeafAttempts n
  | .timeout s _ => stepLeafAttempts s
  | .tryStep s => stepLeafAttempts s
  | .onAbort s n => stepLeafAttempts s ++ stepLeafAttempts n
  | .onError s n => stepLeafAttempts s ++ stepLeafAttempts n
  | .onFailure s n => stepLeafAttempts s ++ stepLeafAttempts n
  | .ensure s n => stepLeafAttempts s ++ stepLeafAttempts n
  | .retry steps => stepLeafList steps
  | .task p => [p.attempts]
  | .setPipeline p => [p.attempts]
  | .loadVar p => [p.attempts]
  | .get p => [p.attempts]
  | .put p => [p.attempts]
  | .artifactInput p => [p.attempts]
  | .artifactOutput p => [p.attempts]

def stepLeafList : List Step → List (List Nat)
  | [] => []
  | s :: ss => stepLeafAttempts s ++ stepLeafList ss

end

mutual

def planLeafAttemptsA : Plan → List Nat → List (List Nat)
  | .aggregate _ subs, a => planLeafListA subs a
  | .inParallel _ subs _ _, a => planLeafListA subs a
  | .doSeq _ subs, a => planLeafListA subs a
  | .timeout _ s _, a => planLeafAttemptsA s a
  | .tryStep _ s, a => planLeafAttemptsA s a
  | .onAbort _ s n, a => planLeafAttemptsA s a ++ planLeafAttemptsA n a
  | .onError _ s n, a => planLeafAttemptsA s a ++ planLeafAttemptsA n a
  | .onSuccess _ s n, a => planLeafAttemptsA s a ++ planLeafAttemptsA n a
  | .onFailure _ s n, a => planLeafAttemptsA s a ++ planLeafAttemptsA n a
  | .ensure _ s n, a => planLeafAttemptsA s a ++ planLeafAttemptsA n a
  | .task _ _, a => [a]
  | .setPipeline _ _, a => [a]
  | .loadVar _ _, a => [a]
  | .get _ _, a => [a]
  | .put _ _, a => [a]
  | .retry _ subs, a => planLeafRetryA subs a 1
  | .artifactInput _ _, a => [a]
  | .artifactOutput _ _, a => [a]
  | .noVariant _, _ => []

def planLeafListA : List Plan → List Nat → List (List Nat)
  | [], _ => []
  | p :: ps, a => planLeafAttemptsA p a ++ planLeafListA ps a

def planLeafRetryA : List Plan → List Nat → Nat → List (List Nat)
  | [], _, _ => []
  | p :: ps, a, i => planLeafAttemptsA p (a ++ [i]) ++ planLeafRetryA ps a (i + 1)

end

/-! ## Spec semantics of `Do`

The run semantics of `exec.OnSuccess` and `exec.IdentityStep` are not part
of the provided source files (only their construction sites are), so they
are modelled from the spec.

Modelled from the spec: §4.D gives the step contract
`Run(ctx, state) -> err` / `Succeeded() -> bool` and the `OnSuccess(a, b)`
semantics — run `a`; if `a.Succeeded`, run `b`; overall succeeded iff
`a.Succeeded ∧ b.Succeeded`; `a` errored surfaces and skips `b`; `b`'s
error surfaces.  `IdentityStep` is the no-op step the builder uses for an
empty `Do` and for variantless plans; it completes without error, runs
nothing, and reports success (the neutral element forced by
`Succeeded = a.Succeeded ∧ b.Succeeded`).

A step's observable behavior is abstracted to the ordered labels of the
leaves it runs, whether it errored, and its final `Succeeded` value; the
children of a `Do` are abstracted as leaves with arbitrary behaviors. -/

structure Behavior where
  trace : List Nat
  errored : Bool
  succeeded : Bool

inductive SStep where
  | leaf (b : Behavior)
  | identity
  | onSuccess (a b : SStep)

def runS : SStep → Behavior
  | .leaf b => b
  | .identity => ⟨[], false, true⟩
  | .onSuccess s n =>
    let ra := runS s
    if ra.errored then ⟨ra.trace, true, false⟩
    else if ra.succeeded then
      let rb := runS n
      ⟨ra.trace ++ rb.trace, rb.errored, ra.succeeded && rb.succeeded⟩
    else ⟨ra.trace, false, false⟩

/-- The right-nested `OnSuccess` shell the builder produces for a `Do`,
over children abstracted to their behaviors. -/
def nestS (bs : List Behavior) : SStep :=
  (bs.map SStep.leaf).foldr SStep.onSuccess SStep.identity

/-- Modelled from the spec: §4.D `Do[s₁, …, sₙ]` — run the children in
order; on the first non-success skip the rest; an errored child
short-circuits; `Succeeded` is the last-run child's success (success when
there are no children, matching the builder's `IdentityStep`). -/
def doSpec : List Behavior → Behavior
  | [] => ⟨[], false, true⟩
  | b :: bs =>
    if b.errored then ⟨b.trace, true, b.succeeded⟩
    else if b.succeeded then
      let r := doSpec bs
      ⟨b.trace ++ r.trace, r.errored, r.succeeded⟩
    else ⟨b.trace, false, b.succeeded⟩

/-! ## Image fetcher (`atc/worker/gardenruntime/image.go`)

Volume/streaming operations are oracles in a `FetchEnv`: each
`findOrCreate…` / `Stream…` call is represented by a `Bool` or `Except`
input giving that call's outcome, and volume paths by `String` inputs.
`Stream­File` and `loadMetadata` failures are collapsed into one
`Except`-valued `metadata` oracle (`.metadataErr`): no claim distinguishes
the two error paths.  Go's `url.URL{Scheme: "raw", Path: p}.String()` for
the absolute volume paths involved is `"raw://" ++ p`, and `path.Join`
on the already-clean paths involved is `/`-concatenation. -/

structure ImageMetadata where
  env : List String
  user : String
deriving DecidableEq

/-- `atc.Version` is a string map; modelled as an association list. -/
structure FetchedImage where
  metadata : ImageMetadata
  version : List (String × String)
  url : String
  privileged : Bool
deriving DecidableEq

/-- `atc.WorkerResourceType`. -/
structure WorkerResourceType where
  type : String
  image : String
  version : String
  privileged : Bool
deriving DecidableEq

structure WorkerModel where
  name : String
  resourceTypes : List WorkerResourceType

/-- `worker.ImageSpec`: at most one of the three variants is populated. -/
structure ImageSpec where
  imageArtifact : Option Nat
  resourceType : String
  imageURL : String
  privileged : Bool

/-- Result of `findVolumeForArtifact`: the volume's worker name and path,
when found. -/
structure FoundVol where
  workerName : String
  path : String
deriving DecidableEq

inductive FetchErr where
  | findVolumeErr
  | volumeErr
  | cowErr
  | streamErr
  | metadataErr
  | unsupportedResourceType
deriving DecidableEq

structure FetchEnv where
  findVolume : Except Unit (Option FoundVol)
  cowOk : Bool
  cowPath : String → String
  streamedVolOk : Bool
  streamedPath : String
  streamOk : Bool
  importOk : Bool
  basePath : String
  metadata : Except Unit ImageMetadata

def RawRootFSScheme : String := "raw"

/-- `url.URL{Scheme: RawRootFSScheme, Path: p}.String()` for an absolute
path `p`. -/
def rawURL (p : String) : String :=
  RawRootFSScheme ++ "://" ++ p

/-- `path.Join` on clean path segments. -/
def pathJoin (a b : String) : String :=
  a ++ "/" ++ b

/-- `Worker.imageProvidedByPreviousStepOnSameWorker`: COW the artifact
volume to `/`, read `metadata.json` from the artifact volume, and return
`raw://<cowPath>/rootfs`.  The second component records whether
`metadata.json` was read. -/
def imageProvidedByPreviousStepOnSameWorker (env : FetchEnv) (privileged : Bool)
    (artifactVolumePath : String) : Except FetchErr FetchedImage × Bool :=
  if !env.cowOk then (.error .cowErr, false)
  else
    match env.metadata with
    | .error _ => (.error .metadataErr, true)
    | .ok m =>
      (.ok { metadata := m, version := [],
             url := rawURL (pathJoin (env.cowPath artifactVolumePath) "rootfs"),
             privileged := privileged }, true)

/-- `Worker.imageProvidedByPreviousStepOnDifferentWorker`: create a local
volume, stream the artifact into it, COW it, read `metadata.json` via the
streamer, and return `raw://<cowPath>/rootfs`. -/
def imageProvidedByPreviousStepOnDifferentWorker (env : FetchEnv)
    (privileged : Bool) : Except FetchErr FetchedImage × Bool :=
  if !env.streamedVolOk then (.error .volumeErr, false)
  else if !env.streamOk then (.error .streamErr, false)
  else if !env.cowOk then (.error .cowErr, false)
  else
    match env.metadata with
    | .error _ => (.error .metadataErr, true)
    | .ok m =>
      (.ok { metadata := m, version := [],
             url := rawURL (pathJoin (env.cowPath env.streamedPath) "rootfs"),
             privileged := privileged }, true)

/-- `Worker.imageFromBaseResourceType`: import the built-in resource type's
image into a base volume, COW it, and return `raw://<cowPath>` (no
`rootfs` segment), empty metadata (`metadata.json` is never read), the
one-entry version map, and the resource type's own privileged flag. -/
def imageFromBaseResourceType (env : FetchEnv) (resourceTypeName : String)
    (t : WorkerResourceType) : Except FetchErr FetchedImage × Bool :=
  if !env.importOk then (.error .volumeErr, false)
  else if !env.cowOk then (.error .cowErr, false)
  else
    (.ok { metadata := { env := [], user := "" },
           version := [(resourceTypeName, t.version)],
           url := rawURL (env.cowPath env.basePath),
           privileged := t.privileged }, false)

/-- `Worker.fetchImageForContainer`: dispatch on the `ImageSpec` variants
in the source's order — `ImageArtifact` (same- or different-worker),
then `ResourceType` (first matching worker resource type, else
`ErrUnsupportedResourceType`), else return the `ImageURL` verbatim. -/
def fetchImageForContainer (w : WorkerModel) (env : FetchEnv)
    (spec : ImageSpec) : Except FetchErr FetchedImage × Bool :=
  match spec.imageArtifact with
  | some _ =>
    match env.findVolume with
    | .error _ => (.error .findVolumeErr, false)
    | .ok (some v) =>
      if v.workerName == w.name then
        imageProvidedByPreviousStepOnSameWorker env spec.privileged v.path
      else
        imageProvidedByPreviousStepOnDifferentWorker env spec.privileged
    | .ok none =>
      imageProvidedByPreviousStepOnDifferentWorker env spec.privileged
  | none =>
    if spec.resourceType != "" then
      match w.resourceTypes.find? (fun t => t.type == spec.resourceType) with
      | some t => imageFromBaseResourceType env spec.resourceType t
      | none => (.error .unsupportedResourceType, false)
    else
      (.ok { metadata := { env := [], user := "" }, version := [],
             url := spec.imageURL, privileged := false }, false)

/-! ## `GetStep.run` (`atc/exec/get_step.go`)

Credential evaluation, resource-cache lookup and the worker client's
`RunGetStep` are oracles; the observable outcome records the error status,
the artifact registration performed on the run state's repository, whether
`delegate.UpdateVersion` was called, the `Finished` event's payload, and
the step's final `Succeeded` value. -/

structure GetPlanM where
  name : String
  resource : String

structure GetResultM where
  exitStatus : Nat
  versionResult : String
  getArtifact : String
deriving DecidableEq

structure GetEnv where
  evalSource : Except Unit Unit
  evalParams : Except Unit Unit
  evalResourceTypes : Except Unit Unit
  evalVersion : Except Unit Unit
  resourceCache : Except Unit Unit
  runGetStep : Except Unit GetResultM

structure GetOutcome where
  err : Bool
  registered : Option (String × String)
  updateVersionCalled : Bool
  finished : Option (Nat × String)
  succeeded : Bool
deriving DecidableEq

/-- `GetStep.run`: evaluate source, params, resource types and version;
find-or-create the resource cache; run the `in` process via the worker
client; on exit status 0 register the fetched volume under the plan's
`Name`, call `UpdateVersion` when the plan names a resource, and mark the
step succeeded; emit `Finished` and return without error regardless of the
exit status. -/
def GetStep.run (plan : GetPlanM) (env : GetEnv) : GetOutcome :=
  match env.evalSource with
  | .error _ => ⟨true, none, false, none, false⟩
  | .ok _ =>
    match env.evalParams with
    | .error _ => ⟨true, none, false, none, false⟩
    | .ok _ =>
      match env.evalResourceTypes with
      | .error _ => ⟨true, none, false, none, false⟩
      | .ok _ =>
        match env.evalVersion with
        | .error _ => ⟨true, none, false, none, false⟩
        | .ok _ =>
          match env.resourceCache with
          | .error _ => ⟨true, none, false, none, false⟩
          | .ok _ =>
            match env.runGetStep with
            | .error _ => ⟨true, none, false, none, false⟩
            | .ok r =>
              { err := false
                registered :=
                  if r.exitStatus = 0 then some (plan.name, r.getArtifact) else none
                updateVersionCalled :=
                  r.exitStatus == 0 && plan.resource != ""
                finished := some (r.exitStatus, r.versionResult)
                succeeded := r.exitStatus == 0 }

/-- A concrete worker for witnesses: supports only the `git` resource
type. -/
def sampleWorker : WorkerModel :=
  ⟨"worker-1", [⟨"git", "/images/git", "v1.2", true⟩]⟩

/-- A concrete fetch environment for witnesses. -/
def sampleFetchEnv : FetchEnv :=
  ⟨.ok none, true, fun p => p ++ "-cow", true, "/vol/streamed", true, true,
   "/vol/base", .ok ⟨["PATH=/usr/bin"], "root"⟩⟩

/-- A concrete environment for the C7 witness: all collaborator calls
succeed and the `in` process exits 0. -/
def sampleGetEnv : GetEnv :=
  ⟨.ok (), .ok (), .ok (), .ok (), .ok (), .ok ⟨0, "v7", "vol-7"⟩⟩

/-! ## Check coordinator (`checkDelegate.WaitToRun`)

`WaitToRun` interleaves reads of external state (`scope.LastCheck()`,
`clock.Now()`, `scope.AcquireResourceCheckingLock`, the post-failure
`select` on `ctx.Done()`/`clock.After(1s)`) with its loop.  The embedding
takes the per-iteration outcomes of those calls as a trace: the `i`-th
element of the trace describes what the external world answers during the
`i`-th loop iteration.  The non-periodic branch performs a single
`LastCheck` read, served by the trace's first element.  A trace that runs
out while the loop would continue yields the `pending` outcome (the Go code
would still be sleeping and retrying).

`plan.IsPeriodic()` is a method of `atc.CheckPlan` whose body is not among
the provided files; per the spec (§4.J) it distinguishes check-build checks
(lidar-triggered or manual) from step-embedded checks, so it is carried as
an opaque `Bool` field of the plan. -/

structure CheckPlanM where
  resource : String
  skipInterval : Bool
  never : Bool
  interval : Int
  fromVersion : Option Unit
  isPeriodic : Bool

structure LastCheckM where
  succeeded : Bool
  startTime : Int
  endTime : Int
deriving DecidableEq

structure BuildTimes where
  createTime : Int
  startTime : Int

structure IterInput where
  lastCheck : Except Unit LastCheckM
  now : Int
  acquire : Except Unit Bool
  ctxDone : Bool

/-- The lock value `WaitToRun` returns: Go `nil`, the initial
`lock.NoopLock{}`, or a really acquired resource-checking lock. -/
inductive LockRes where
  | noLock
  | noop
  | acquired
deriving DecidableEq

inductive WaitErr where
  | rateLimit
  | lastCheckErr
  | acquireErr
  | ctxErr
deriving DecidableEq

inductive WaitOutcome where
  | ret (lock : LockRes) (shouldRun : Bool)
  | err (e : WaitErr)
  | pending
deriving DecidableEq

/-- Observable side effects of a `WaitToRun` call: whether `limiter.Wait`
was invoked and how many times `AcquireResourceCheckingLock` was called. -/
structure WaitEffects where
  limiterWaited : Bool
  acquireAttempts : Nat
deriving DecidableEq

/-- The `for` loop of the periodic branch.  Each iteration re-reads
`LastCheck`; a manually triggered check (`SkipInterval`) without
`FromVersion` reuses a successful last check that started after the build
was created, while a periodic check returns no-run while `now` is before
the last check's end plus the interval; otherwise the lock is attempted,
`break`-ing (and returning the lock with `shouldRun = true`) on success,
erroring if the context is done, and looping after the 1s sleep
otherwise.  Also returns the number of lock acquisition attempts. -/
def waitLoop (plan : CheckPlanM) (build : BuildTimes) :
    List IterInput → WaitOutcome × Nat
  | [] => (.pending, 0)
  | it :: rest =>
    match it.lastCheck with
    | .error _ => (.err .lastCheckErr, 0)
    | .ok lc =>
      let noRun : Bool :=
        if plan.skipInterval then
          plan.fromVersion.isNone && lc.succeeded &&
            decide (build.createTime < lc.startTime)
        else
          decide (it.now < lc.endTime + plan.interval)
      if noRun then (.ret .noLock false, 0)
      else
        match it.acquire with
        | .error _ => (.err .acquireErr, 1)
        | .ok true => (.ret .acquired true, 1)
        | .ok false =>
          if it.ctxDone then (.err .ctxErr, 1)
          else
            let r := waitLoop plan build rest
            (r.1, r.2 + 1)

/-- The part of `WaitToRun` after the rate-limiting prelude: the periodic
branch loops (starting from `lock = NoopLock`, overwritten on acquisition),
while the step-embedded branch reads `LastCheck` once, reuses a successful
check that ended after the build started, and otherwise runs with the
`NoopLock` and no lock acquisition. -/
def waitMain (plan : CheckPlanM) (build : BuildTimes) (trace : List IterInput)
    (waited : Bool) : WaitOutcome × WaitEffects :=
  if plan.isPeriodic then
    let r := waitLoop plan build trace
    (r.1, ⟨waited, r.2⟩)
  else
    match trace with
    | [] => (.pending, ⟨waited, 0⟩)
    | it :: _ =>
      match it.lastCheck with
      | .error _ => (.err .lastCheckErr, ⟨waited, 0⟩)
      | .ok lc =>
        if lc.succeeded && decide (build.startTime < lc.endTime) then
          (.ret .noLock false, ⟨waited, 0⟩)
        else
          (.ret .noop true, ⟨waited, 0⟩)

/-- `checkDelegate.WaitToRun`.  When the interval is not skipped: a
`Never` interval returns immediately with no lock and `shouldRun = false`,
and otherwise a resource check (`plan.Resource != ""`) waits on the global
rate limiter, propagating its error.  Then the periodic or step-embedded
logic of `waitMain` runs. -/
def WaitToRun (plan : CheckPlanM) (build : BuildTimes)
    (limiter : Except Unit Unit) (trace : List IterInput) :
    WaitOutcome × WaitEffects :=
  if !plan.skipInterval && plan.never then
    (.ret .noLock false, ⟨false, 0⟩)
  else if !plan.skipInterval && plan.resource != "" then
    match limiter with
    | .error _ => (.err .rateLimit, ⟨true, 0⟩)
    | .ok _ => waitMain plan build trace true
  else
    waitMain plan build trace false

/-- A lidar-triggered periodic resource check plan: 10-unit interval, not
manual, not `Never`. -/
def periodicPlan : CheckPlanM := ⟨"some-resource", false, false, 10, none, true⟩

/-- A manually triggered resource check plan (`SkipInterval`). -/
def manualPlan : CheckPlanM := ⟨"some-resource", true, false, 60, none, true⟩

/-- A step-embedded check plan whose user configured `check_every: never`. -/
def embeddedNeverPlan : CheckPlanM := ⟨"some-resource", false, true, 60, none, false⟩

/-! ## Builder lemmas -/

mutual

theorem leafAttempts_buildStep : ∀ (p : Plan) (a : List Nat),
    stepLeafAttempts (buildStepA p a) = planLeafAttemptsA p a
  | .aggregate _ subs, a => by
      simpa [buildStepA, stepLeafAttempts, planLeafAttemptsA] using
        leafAttempts_buildList subs a
  | .inParallel _ subs _ _, a => by
      simpa [buildStepA, stepLeafAttempts, planLeafAttemptsA] using
        leafAttempts_buildList subs a
  | .doSeq _ subs, a => by
      simpa [buildStepA, planLeafAttemptsA] using leafAttempts_buildDo subs a
  | .timeout _ s _, a => by
      simpa [buildStepA, stepLeafAttempts, planLeafAttemptsA] using
        leafAttempts_buildStep s a
  | .tryStep _ s, a => by
      simpa [buildStepA, stepLeafAttempts, planLeafAttemptsA] using
        leafAttempts_buildStep s a
  | .onAbort _ s n, a => by
      simp [buildStepA, stepLeafAttempts, planLeafAttemptsA,
        leafAttempts_buildStep s a, leafAttempts_buildStep n a]
  | .onError _ s n, a => by
      simp [buildStepA, stepLeafAttempts, planLeafAttemptsA,
        leafAttempts_buildStep s a, leafAttempts_buildStep n a]
  | .onSuccess _ s n, a => by
      simp [buildStepA, stepLeafAttempts, planLeafAttemptsA,
        leafAttempts_buildStep s a, leafAttempts_buildStep n a]
  | .onFailure _ s n, a => by
      simp [buildStepA, stepLeafAttempts, planLeafAttemptsA,
        leafAttempts_buildStep s a, leafAttempts_buildStep n a]
  | .ensure _ s n, a => by
      simp [buildStepA, stepLeafAttempts, planLeafAttemptsA,
        leafAttempts_buildStep s a, leafAttempts_buildStep n a]
  | .task _ _, a => by
      simp [buildStepA, stepLeafAttempts, planLeafAttemptsA, Plan.attempts]
  | .setPipeline _ _, a => by
      simp [buildStepA, stepLeafAttempts, planLeafAttemptsA, Plan.attempts]
  | .loadVar _ _, a => by
      simp [buildStepA, stepLeafAttempts, planLeafAttemptsA, Plan.attempts]
  | .get _ _, a => by
      simp [buildStepA, stepLeafAttempts, planLeafAttemptsA, Plan.attempts]
  | .put _ _, a => by
      simp [buildStepA, stepLeafAttempts, planLeafAttemptsA, Plan.attempts]
  | .retry _ subs, a => by
      simpa [buildStepA, stepLeafAttempts, planLeafAttemptsA] using
        leafAttempts_buildRetry subs a 1
  | .artifactInput _ _, a => by
      simp [buildStepA, stepLeafAttempts, planLeafAttemptsA, Plan.attempts]
  | .artifactOutput _ _, a => by
      simp [buildStepA, stepLeafAttempts, planLeafAttemptsA, Plan.attempts]
  | .noVariant _, a => by
      simp [buildStepA, stepLeafAttempts, planLeafAttemptsA]

theorem leafAttempts_buildList : ∀ (ps : List Plan) (a : List Nat),
    stepLeafList (buildListA ps a) = planLeafListA ps a
  | [], _ => rfl
  | p :: ps, a => by
      simp [buildListA, stepLeafList, planLeafListA,
        leafAttempts_buildStep p a, leafAttempts_buildList ps a]

theorem leafAttempts_buildDo : ∀ (ps : List Plan) (a : List Nat),
    stepLeafAttempts (buildDoA ps a) = planLeafListA ps a
  | [], _ => rfl
  | p :: ps, a => by
      simp [buildDoA, stepLeafAttempts, planLeafListA,
        leafAttempts_buildStep p a, leafAttempts_buildDo ps a]

theorem leafAttempts_buildRetry : ∀ (ps : List Plan) (a : List Nat) (i : Nat),
    stepLeafList (buildRetryA ps a i) = planLeafRetryA ps a i
  | [], _, _ => rfl
  | p :: ps, a, i => by
      simp [buildRetryA, stepLeafList, planLeafRetryA,
        leafAttempts_buildStep p (a ++ [i]), leafAttempts_buildRetry ps a (i + 1)]

end

theorem buildDoA_foldr : ∀ (subs : List Plan) (a : List Nat),
    buildDoA subs a = (buildListA subs a).foldr Step.onSuccess Step.identity
  | [], _ => by simp [buildDoA, buildListA]
  | p :: ps, a => by
      simp [buildDoA, buildListA, buildDoA_foldr ps a]

theorem runS_nestS (bs : List Behavior)
    (h : ∀ b ∈ bs, b.errored = true → b.succeeded = false) :
    runS (nestS bs) = doSpec bs := by
  induction bs with
  | nil => rfl
  | cons b bs ih =>
    have hb := h b (List.mem_cons_self b bs)
    have hrest : ∀ x ∈ bs, x.errored = true → x.succeeded = false :=
      fun x hx => h x (List.mem_cons_of_mem b hx)
    have hnest : nestS (b :: bs) = SStep.onSuccess (SStep.leaf b) (nestS bs) := rfl
    rw [hnest]
    cases he : b.errored with
    | true => simp [runS, doSpec, he, hb he]
    | false =>
      cases hs : b.succeeded with
      | true => simp [runS, doSpec, he, hs, ih hrest]
      | false => simp [runS, doSpec, he, hs]

/-! ## Claims about the step builder -/

/-- C2 counterexample: a plan node with no combinator or leaf variant set
compiles to `IdentityStep` and `BuildStep` reports no error at all — in
particular not a "malformed plan" error, contrary to the claim. -/
theorem buildStep_noVariant_cex :
    BuildStep (some ⟨"exec.v2", Plan.noVariant []⟩) = .ok Step.identity ∧
    BuildStep (some ⟨"exec.v2", Plan.noVariant []⟩) ≠ .error "malformed plan" := by
  have h1 : BuildStep (some ⟨"exec.v2", Plan.noVariant []⟩) = .ok Step.identity := by
    simp [BuildStep, supportedSchema, buildStep, buildStepA, Plan.attempts]
  exact ⟨h1, by rw [h1]; intro h; exact Except.noConfusion h⟩

/-- C2 (amended): for every plan node in which no combinator or leaf
variant is set, the builder produces the no-op `IdentityStep` and the build
is not failed: `BuildStep` returns it without error (the builder performs
no "malformed plan" validation; its only failure modes are a `nil` build
and an unsupported schema). -/
theorem buildStep_noVariant_identity (a b : List Nat) :
    buildStepA (Plan.noVariant a) b = Step.identity ∧
    BuildStep (some ⟨supportedSchema, Plan.noVariant a⟩) = .ok Step.identity := by
  constructor
  · simp [buildStepA]
  · simp [BuildStep, buildStep, buildStepA, Plan.attempts]

/-- C8: the attempts lists carried by the factory-built leaves of a
compiled plan are exactly those computed by the propagation rule of the
claim: a `Retry` node compiles its `i`-th child with the parent's
`Attempts` extended by the 1-based index `i` (so its `n` children carry
distinct attempt lists ending in `1..n`), and every other combinator hands
its children the parent's `Attempts` unchanged. -/
theorem buildStep_attempts_spec (p : Plan) (a : List Nat) :
    stepLeafAttempts (buildStepA p a) = planLeafAttemptsA p a :=
  leafAttempts_buildStep p a

/-- C9: compiling a `Do` plan yields the right-nested
`OnSuccess(s₁, OnSuccess(s₂, …, OnSuccess(sₙ, Identity)))` tree, and that
shell realizes the spec's `Do` semantics: abstracting each child by its
behavior, running the nest runs the children in order, stops at the first
non-success, short-circuits on an errored child, and reports the last-run
child's success. -/
theorem buildDo_refines_do_spec :
    (∀ (x a : List Nat) (subs : List Plan),
        buildStepA (Plan.doSeq x subs) a
          = (buildListA subs a).foldr Step.onSuccess Step.identity) ∧
    (∀ bs : List Behavior,
        (∀ b ∈ bs, b.errored = true → b.succeeded = false) →
        runS (nestS bs) = doSpec bs) := by
  constructor
  · intro x a subs
    rw [show buildStepA (Plan.doSeq x subs) a = buildDoA subs a by simp [buildStepA]]
    exact buildDoA_foldr subs a
  · exact runS_nestS

/-- Witness for C9 at a concrete behavior list (second child errors, so the
third is skipped and the run is errored and not succeeded). -/
theorem buildDo_refines_do_spec_witness :
    runS (nestS [⟨[1], false, true⟩, ⟨[2], true, false⟩, ⟨[3], false, true⟩])
      = doSpec [⟨[1], false, true⟩, ⟨[2], true, false⟩, ⟨[3], false, true⟩] :=
  buildDo_refines_do_spec.2 _ (by decide)

/-! ## Claims about the image fetcher and `GetStep` -/

/-- C3 counterexample: an `ImageSpec` with no variant at all set (no
`ImageArtifact`, empty `ResourceType`, empty `ImageURL`) does not fail with
`ErrUnsupportedResourceType` — the code falls through to the `ImageURL`
return and succeeds with an empty URL. -/
theorem fetchImage_noVariant_cex :
    fetchImageForContainer sampleWorker sampleFetchEnv ⟨none, "", "", false⟩
      = (.ok { metadata := { env := [], user := "" }, version := [],
               url := "", privileged := false }, false) ∧
    (fetchImageForContainer sampleWorker sampleFetchEnv ⟨none, "", "", false⟩).1
      ≠ .error .unsupportedResourceType := by
  constructor
  · rfl
  · intro h
    exact Except.noConfusion h

/-- C3 (amended): with `ImageArtifact` unset and `ResourceType` empty —
whether `ImageURL` is set or no variant is set at all —
`fetchImageForContainer` returns the `ImageURL` verbatim (the empty string
when unset) with empty metadata and no error; `ErrUnsupportedResourceType`
is returned only when `ResourceType` is non-empty and names no resource
type of the worker. -/
theorem fetchImage_imageURL_spec :
    (∀ (w : WorkerModel) (env : FetchEnv) (url : String) (priv : Bool),
        fetchImageForContainer w env ⟨none, "", url, priv⟩
          = (.ok { metadata := { env := [], user := "" }, version := [],
                   url := url, privileged := false }, false)) ∧
    (∀ (w : WorkerModel) (env : FetchEnv) (spec : ImageSpec),
        spec.imageArtifact = none →
        spec.resourceType ≠ "" →
        w.resourceTypes.find? (fun t => t.type == spec.resourceType) = none →
        fetchImageForContainer w env spec
          = (.error .unsupportedResourceType, false)) := by
  constructor
  · intro w env url priv
    rfl
  · intro w env spec h1 h2 h3
    obtain ⟨ia, rt, u, pr⟩ := spec
    simp only at h1 h2 h3
    subst h1
    simp [fetchImageForContainer, h2, h3]

/-- Witness for C3's amended theorem: the `ImageURL` branch at a concrete
URL, and `ErrUnsupportedResourceType` for a resource type the worker does
not support. -/
theorem fetchImage_imageURL_spec_witness :
    fetchImageForContainer sampleWorker sampleFetchEnv
        ⟨none, "", "docker:///alpine", true⟩
      = (.ok { metadata := { env := [], user := "" }, version := [],
               url := "docker:///alpine", privileged := false }, false) ∧
    fetchImageForContainer sampleWorker sampleFetchEnv ⟨none, "mercurial", "", false⟩
      = (.error .unsupportedResourceType, false) :=
  ⟨fetchImage_imageURL_spec.1 sampleWorker sampleFetchEnv "docker:///alpine" true,
   fetchImage_imageURL_spec.2 sampleWorker sampleFetchEnv ⟨none, "mercurial", "", false⟩
     rfl (by decide) rfl⟩

/-- C10: for a supported `ResourceType`, the fetched image's URL is
`raw://<cowVolumePath>` with no `rootfs` segment (whereas the
image-artifact path, second conjunct, appends `rootfs`); its metadata is
empty and `metadata.json` is never read (the `Bool` component is `false`);
its version is the one-entry map from the resource type name to the
worker resource type's version; and its privileged flag is the worker
resource-type record's, independent of the `ImageSpec`'s flag. -/
theorem imageFromBaseResourceType_spec :
    (∀ (w : WorkerModel) (env : FetchEnv) (spec : ImageSpec) (t : WorkerResourceType),
        spec.imageArtifact = none →
        w.resourceTypes.find? (fun rt => rt.type == spec.resourceType) = some t →
        spec.resourceType ≠ "" →
        env.importOk = true →
        env.cowOk = true →
        fetchImageForContainer w env spec
          = (.ok { metadata := { env := [], user := "" },
                   version := [(spec.resourceType, t.version)],
                   url := rawURL (env.cowPath env.basePath),
                   privileged := t.privileged }, false)) ∧
    (∀ (env : FetchEnv) (priv : Bool) (p : String) (m : ImageMetadata),
        env.cowOk = true →
        env.metadata = .ok m →
        imageProvidedByPreviousStepOnSameWorker env priv p
          = (.ok { metadata := m, version := [],
                   url := rawURL (pathJoin (env.cowPath p) "rootfs"),
                   privileged := priv }, true)) := by
  constructor
  · intro w env spec t h1 h2 h3 h4 h5
    obtain ⟨ia, rt, u, pr⟩ := spec
    simp only at h1 h2 h3
    subst h1
    simp [fetchImageForContainer, imageFromBaseResourceType, h2, h3, h4, h5]
  · intro env priv p m h1 h2
    simp [imageProvidedByPreviousStepOnSameWorker, h1, h2]

/-- Witness for C10 at the sample worker's `git` resource type (note the
`ImageSpec` asks for an unprivileged image but the record wins) and at a
concrete same-worker artifact volume. -/
theorem imageFromBaseResourceType_spec_witness :
    fetchImageForContainer sampleWorker sampleFetchEnv ⟨none, "git", "", false⟩
      = (.ok { metadata := { env := [], user := "" },
               version := [("git", "v1.2")],
               url := rawURL (sampleFetchEnv.cowPath sampleFetchEnv.basePath),
               privileged := true }, false) ∧
    imageProvidedByPreviousStepOnSameWorker sampleFetchEnv false "/vol/art"
      = (.ok { metadata := ⟨["PATH=/usr/bin"], "root"⟩, version := [],
               url := rawURL (pathJoin (sampleFetchEnv.cowPath "/vol/art") "rootfs"),
               privileged := false }, true) :=
  ⟨imageFromBaseResourceType_spec.1 sampleWorker sampleFetchEnv
      ⟨none, "git", "", false⟩ ⟨"git", "/images/git", "v1.2", true⟩ rfl rfl
      (by decide) rfl rfl,
   imageFromBaseResourceType_spec.2 sampleFetchEnv false "/vol/art"
      ⟨["PATH=/usr/bin"], "root"⟩ rfl rfl⟩

/-- C7: when every collaborator call succeeds (so the run completes
without error), the fetched volume is registered under the plan's `Name`
exactly when the exit status is 0, `UpdateVersion` is called exactly when
the exit status is 0 and the plan names a resource, `Succeeded()` is true
iff the exit status is 0, and the run's error is nil even for a nonzero
exit status. -/
theorem GetStep.run_spec (plan : GetPlanM) (env : GetEnv) (r : GetResultM)
    (h1 : env.evalSource = .ok ()) (h2 : env.evalParams = .ok ())
    (h3 : env.evalResourceTypes = .ok ()) (h4 : env.evalVersion = .ok ())
    (h5 : env.resourceCache = .ok ()) (h6 : env.runGetStep = .ok r) :
    (GetStep.run plan env).err = false ∧
    ((∃ art, (GetStep.run plan env).registered = some (plan.name, art))
        ↔ r.exitStatus = 0) ∧
    ((GetStep.run plan env).updateVersionCalled = true
        ↔ (r.exitStatus = 0 ∧ plan.resource ≠ "")) ∧
    ((GetStep.run plan env).succeeded = true ↔ r.exitStatus = 0) := by
  simp only [GetStep.run, h1, h2, h3, h4, h5, h6]
  refine ⟨by trivial, ?_, ?_, ?_⟩
  · by_cases hx : r.exitStatus = 0 <;> simp [hx]
  · by_cases hx : r.exitStatus = 0 <;> by_cases hr : plan.resource = "" <;>
      simp [hx, hr]
  · by_cases hx : r.exitStatus = 0 <;> simp [hx]

/-- Witness for C7 at a successful concrete run of a resource get. -/
theorem GetStep.run_spec_witness :
    (GetStep.run ⟨"my-input", "my-resource"⟩ sampleGetEnv).err = false ∧
    ((∃ art, (GetStep.run ⟨"my-input", "my-resource"⟩ sampleGetEnv).registered
          = some ("my-input", art))
        ↔ (GetResultM.mk 0 "v7" "vol-7").exitStatus = 0) ∧
    ((GetStep.run ⟨"my-input", "my-resource"⟩ sampleGetEnv).updateVersionCalled = true
        ↔ ((GetResultM.mk 0 "v7" "vol-7").exitStatus = 0 ∧
            (GetPlanM.mk "my-input" "my-resource").resource ≠ "")) ∧
    ((GetStep.run ⟨"my-input", "my-resource"⟩ sampleGetEnv).succeeded = true
        ↔ (GetResultM.mk 0 "v7" "vol-7").exitStatus = 0) :=
  GetStep.run_spec ⟨"my-input", "my-resource"⟩ sampleGetEnv ⟨0, "v7", "vol-7"⟩
    rfl rfl rfl rfl rfl rfl

/-! ## Check coordinator lemmas -/

theorem waitMain_waited (p : CheckPlanM) (b : BuildTimes) (t : List IterInput)
    (w : Bool) : (waitMain p b t w).2.limiterWaited = w := by
  unfold waitMain
  split
  · rfl
  · cases t with
    | nil => rfl
    | cons it rest =>
      cases hlc : it.lastCheck with
      | error e => simp [hlc]
      | ok lc =>
        simp only [hlc]
        split <;> rfl

theorem waitMain_embedded (p : CheckPlanM) (b : BuildTimes) (it : IterInput)
    (rest : List IterInput) (w : Bool) (lc : LastCheckM)
    (hper : p.isPeriodic = false) (hlc : it.lastCheck = .ok lc) :
    waitMain p b (it :: rest) w
      = if lc.succeeded = true ∧ b.startTime < lc.endTime
        then (.ret .noLock false, ⟨w, 0⟩)
        else (.ret .noop true, ⟨w, 0⟩) := by
  cases hsucc : lc.succeeded <;> by_cases hend : b.startTime < lc.endTime <;>
    simp [waitMain, hper, hlc, hsucc, hend]

theorem waitLoop_manual_noReuse (p : CheckPlanM) (b : BuildTimes)
    (hskip : p.skipInterval = true) (hfv : p.fromVersion = some ()) :
    ∀ trace : List IterInput, (waitLoop p b trace).1 ≠ .ret .noLock false := by
  intro trace
  induction trace with
  | nil => simp [waitLoop]
  | cons it rest ih =>
    unfold waitLoop
    cases hlc : it.lastCheck with
    | error e => simp
    | ok lc =>
      simp only [hskip, hfv, Option.isNone_some, Bool.false_and, if_true,
        Bool.false_eq_true, if_false]
      cases hacq : it.acquire with
      | error e => simp
      | ok acquired =>
        cases acquired with
        | true => simp
        | false =>
          cases hdone : it.ctxDone with
          | true => simp [hdone]
          | false => simpa [hdone] using ih

theorem waitLoop_manual_attempts (p : CheckPlanM) (b : BuildTimes)
    (it : IterInput) (rest : List IterInput) (lc : LastCheckM)
    (hskip : p.skipInterval = true) (hfv : p.fromVersion = some ())
    (hlc : it.lastCheck = .ok lc) :
    1 ≤ (waitLoop p b (it :: rest)).2 := by
  unfold waitLoop
  simp only [hlc, hskip, hfv, Option.isNone_some, Bool.false_and, if_true,
    Bool.false_eq_true, if_false]
  cases hacq : it.acquire with
  | error e => simp
  | ok acquired =>
    cases acquired with
    | true => simp
    | false =>
      cases hdone : it.ctxDone with
      | true => simp [hdone]
      | false => simp [hdone]

/-! ## Claims about the check coordinator -/

/-- C1 counterexample: a periodic check whose first loop iteration passes
the interval gate and acquires the lock.  The scope's state at the next
read (second trace element) would fail the gate (`100 < 95 + 10`), so the
claim requires the coordinator to re-read `LastCheck`, release the lock and
return `shouldRun = false`; the code instead `break`s out of the loop on
acquisition and returns `(lock, true)` after a single lock attempt, never
consuming the second read. -/
theorem WaitToRun_no_retest_cex :
    WaitToRun periodicPlan ⟨0, 0⟩ (.ok ())
        [⟨.ok ⟨true, 0, 0⟩, 100, .ok true, false⟩,
         ⟨.ok ⟨true, 90, 95⟩, 100, .ok false, false⟩]
      = (.ret .acquired true, ⟨true, 1⟩) ∧
    ((100 : Int) < 95 + periodicPlan.interval) :=
  ⟨rfl, by decide⟩

/-- C1 (amended): for a periodic check (`IsPeriodic`,
`SkipInterval = false`, not `Never`), once an iteration passes the interval
gate and acquires the resource-checking lock, `WaitToRun` returns
`(lock, true)` immediately: `LastCheck` is not re-read and the interval
gate is not re-evaluated after acquisition — the result is independent of
every subsequent trace element. -/
theorem WaitToRun_acquired_immediate (plan : CheckPlanM) (build : BuildTimes)
    (lim : Except Unit Unit) (it : IterInput) (rest : List IterInput)
    (lc : LastCheckM)
    (hper : plan.isPeriodic = true) (hskip : plan.skipInterval = false)
    (hnev : plan.never = false) (hlim : lim = .ok ())
    (hlc : it.lastCheck = .ok lc)
    (hgate : ¬(it.now < lc.endTime + plan.interval))
    (hacq : it.acquire = .ok true) :
    (WaitToRun plan build lim (it :: rest)).1 = .ret .acquired true := by
  have hloop : waitLoop plan build (it :: rest) = (.ret .acquired true, 1) := by
    unfold waitLoop
    simp [hlc, hskip, hgate, hacq]
  by_cases hres : plan.resource = "" <;>
    simp [WaitToRun, waitMain, hper, hskip, hnev, hlim, hres, hloop]

/-- Witness for C1's amended theorem: the counterexample's trace, first
iteration acquiring. -/
theorem WaitToRun_acquired_immediate_witness :
    (WaitToRun periodicPlan ⟨0, 0⟩ (.ok ())
        [⟨.ok ⟨true, 0, 0⟩, 100, .ok true, false⟩,
         ⟨.ok ⟨true, 90, 95⟩, 100, .ok false, false⟩]).1
      = .ret .acquired true :=
  WaitToRun_acquired_immediate periodicPlan ⟨0, 0⟩ (.ok ()) _ _ ⟨true, 0, 0⟩
    rfl rfl rfl rfl rfl (by decide) rfl

/-- C4: `limiter.Wait` is called iff the check is non-manual
(`SkipInterval = false`), not `Never`, and a resource check
(`plan.Resource != ""`) — so manual checks and resource-type/prototype
checks (empty `Resource`) never wait on the rate limiter. -/
theorem WaitToRun_limiter_iff (plan : CheckPlanM) (build : BuildTimes)
    (limiter : Except Unit Unit) (trace : List IterInput) :
    (WaitToRun plan build limiter trace).2.limiterWaited
      = (!plan.skipInterval && !plan.never && plan.resource != "") := by
  unfold WaitToRun
  by_cases hs : plan.skipInterval <;> by_cases hn : plan.never <;>
    by_cases hr : plan.resource = "" <;> cases limiter <;>
      simp [hs, hn, hr, waitMain_waited]

/-- C5: a manually triggered periodic check (`IsPeriodic`,
`SkipInterval = true`) without `FromVersion` reuses a successful last check
that started after the build was created, returning no lock and
`shouldRun = false` with no lock attempt and no limiter wait; with
`FromVersion` set it never reuses (the no-lock/no-run result is
unreachable) and proceeds to attempt the lock. -/
theorem WaitToRun_manual_spec (plan : CheckPlanM) (build : BuildTimes)
    (lim : Except Unit Unit) (it : IterInput) (rest : List IterInput)
    (lc : LastCheckM)
    (hper : plan.isPeriodic = true) (hskip : plan.skipInterval = true)
    (hlc : it.lastCheck = .ok lc) :
    (plan.fromVersion = none → lc.succeeded = true →
        build.createTime < lc.startTime →
        WaitToRun plan build lim (it :: rest) = (.ret .noLock false, ⟨false, 0⟩)) ∧
    (plan.fromVersion = some () →
        1 ≤ (WaitToRun plan build lim (it :: rest)).2.acquireAttempts ∧
        (WaitToRun plan build lim (it :: rest)).1 ≠ .ret .noLock false) := by
  have hmain : WaitToRun plan build lim (it :: rest)
      = waitMain plan build (it :: rest) false := by
    simp [WaitToRun, hskip]
  constructor
  · intro hfv hsucc hct
    have hloop : waitLoop plan build (it :: rest) = (.ret .noLock false, 0) := by
      unfold waitLoop
      simp [hlc, hskip, hfv, hsucc, hct]
    simp [hmain, waitMain, hper, hloop]
  · intro hfv
    constructor
    · have := waitLoop_manual_attempts plan build it rest lc hskip hfv hlc
      simpa [hmain, waitMain, hper] using this
    · have := waitLoop_manual_noReuse plan build hskip hfv (it :: rest)
      simpa [hmain, waitMain, hper] using this

/-- Witness for C5: a manual check created at time 5 while the last check
succeeded over the window 10–12, so the result is reused. -/
theorem WaitToRun_manual_spec_witness :
    WaitToRun manualPlan ⟨5, 0⟩ (.ok ())
        [⟨.ok ⟨true, 10, 12⟩, 0, .ok true, false⟩]
      = (.ret .noLock false, ⟨false, 0⟩) :=
  (WaitToRun_manual_spec manualPlan ⟨5, 0⟩ (.ok ()) _ [] ⟨true, 10, 12⟩
      rfl rfl rfl).1 rfl rfl (by decide)

/-- C6 counterexample: a step-embedded check (`IsPeriodic = false`) whose
plan carries `Interval.Never = true` and `SkipInterval = false`, with a
failed last check.  The claim requires `(no lock, shouldRun = true)` since
the last check did not succeed, but the `Never` prelude returns
`(no lock, false)` before the embedded branch is ever reached. -/
theorem WaitToRun_embedded_never_cex :
    WaitToRun embeddedNeverPlan ⟨0, 0⟩ (.ok ())
        [⟨.ok ⟨false, 0, 0⟩, 0, .ok false, false⟩]
      = (.ret .noLock false, ⟨false, 0⟩) ∧
    (LastCheckM.mk false 0 0).succeeded = false :=
  ⟨rfl, rfl⟩

/-- C6 (amended): for a step-embedded (non-periodic) check that the
`¬SkipInterval ∧ Interval.Never` prelude does not short-circuit and whose
rate-limiter wait (when applied) succeeds, `WaitToRun` never attempts the
resource-checking lock: it returns `(no lock, false)` when the last check
succeeded and ended after the build started, and `(NoopLock, true)`
otherwise. -/
theorem WaitToRun_embedded_spec (plan : CheckPlanM) (build : BuildTimes)
    (lim : Except Unit Unit) (it : IterInput) (rest : List IterInput)
    (lc : LastCheckM)
    (hper : plan.isPeriodic = false)
    (hpre : plan.skipInterval = true ∨ plan.never = false)
    (hlim : lim = .ok ())
    (hlc : it.lastCheck = .ok lc) :
    ((WaitToRun plan build lim (it :: rest)).1
        = if lc.succeeded = true ∧ build.startTime < lc.endTime
          then .ret .noLock false
          else .ret .noop true) ∧
    (WaitToRun plan build lim (it :: rest)).2.acquireAttempts = 0 := by
  have hmain := fun w => waitMain_embedded plan build it rest w lc hper hlc
  by_cases hs : plan.skipInterval
  · have : WaitToRun plan build lim (it :: rest)
        = waitMain plan build (it :: rest) false := by
      simp [WaitToRun, hs]
    rw [this, hmain false]
    by_cases hc : lc.succeeded = true ∧ build.startTime < lc.endTime <;> simp [hc]
  · have hn : plan.never = false := hpre.resolve_left hs
    by_cases hr : plan.resource = ""
    · have : WaitToRun plan build lim (it :: rest)
          = waitMain plan build (it :: rest) false := by
        simp [WaitToRun, hs, hn, hr]
      rw [this, hmain false]
      by_cases hc : lc.succeeded = true ∧ build.startTime < lc.endTime <;> simp [hc]
    · have : WaitToRun plan build lim (it :: rest)
          = waitMain plan build (it :: rest) true := by
        simp [WaitToRun, hs, hn, hr, hlim]
      rw [this, hmain true]
      by_cases hc : lc.succeeded = true ∧ build.startTime < lc.endTime <;> simp [hc]

/-- Witness for C6's amended theorem: an embedded check of a resource whose
last check succeeded after the build started, so the result is reused with
no lock. -/
theorem WaitToRun_embedded_spec_witness :
    ((WaitToRun ⟨"some-resource", false, false, 60, none, false⟩ ⟨0, 3⟩ (.ok ())
        [⟨.ok ⟨true, 4, 8⟩, 0, .ok false, false⟩]).1
        = if (LastCheckM.mk true 4 8).succeeded = true ∧
              (BuildTimes.mk 0 3).startTime < (LastCheckM.mk true 4 8).endTime
          then .ret .noLock false
          else .ret .noop true) ∧
    (WaitToRun ⟨"some-resource", false, false, 60, none, false⟩ ⟨0, 3⟩ (.ok ())
        [⟨.ok ⟨true, 4, 8⟩, 0, .ok false, false⟩]).2.acquireAttempts = 0 :=
  WaitToRun_embedded_spec ⟨"some-resource", false, false, 60, none, false⟩
    ⟨0, 3⟩ (.ok ()) _ [] ⟨true, 4, 8⟩ rfl (Or.inr rfl) rfl rfl

end Concourse
